import Mathlib

/-!
Verification of the Todoist Bridge cache-cleanup utility
(`cleanup_data_json.py`) against its specification.

The Python script is shallowly embedded below: the JSON snapshot becomes a
`Document`, the filesystem becomes a partial map `String → Option String`
(`none` = path does not exist), printing / backing up / writing become an
explicit `Effect` trace produced by `main`, and `CleanupError` becomes the
`Except CleanupErr` monad.
-/

namespace TodoistBridge

/-- A JSON task identifier: the snapshot stores identifiers either as
strings or as numbers (`str()` is applied before comparison). -/
inductive IdVal where
  | str (s : String)
  | num (n : Int)
  deriving DecidableEq, Repr

/-- One task record of `todoistTasksData.tasks`.  `id = none` models a
record whose `"id"` key is absent or JSON `null` (the Python expression `task.get("id")`
returns `None` in both cases); `path = none` models an absent `"path"` key.
`other` stands for the remaining opaque fields, preserved verbatim. -/
structure Task where
  id : Option IdVal
  path : Option String
  other : Nat := 0
  deriving DecidableEq, Repr

/-- The `todoistTasksData` object; its `"tasks"` key may be absent. -/
structure TasksData where
  tasks : Option (List Task)
  other : Nat := 0
  deriving DecidableEq, Repr

/-- One `fileMetadata` entry.  `todoistTasks = none` models an absent key or
JSON `null`; `todoistCount = none` models an absent count. -/
structure MetaEntry where
  todoistTasks : Option (List String)
  todoistCount : Option Int
  other : Nat := 0
  deriving DecidableEq, Repr

/-- The snapshot document.  `fileMetadata` is the insertion-ordered mapping
from note path to metadata entry (an absent `fileMetadata` key behaves
exactly like the empty mapping in every code path, so it is modelled as
`[]`). -/
structure Document where
  todoistTasksData : Option TasksData
  fileMetadata : List (String × MetaEntry)
  other : Nat := 0
  deriving DecidableEq, Repr

/-- `str(task.get("id"))`: Python renders `None` as `"None"`, strings
verbatim, and numbers in decimal. -/
def strOfId : Option IdVal → String
  | none => "None"
  | some (IdVal.str s) => s
  | some (IdVal.num n) => toString n

/-- `task.get("path") or ""`: an absent path and an empty path collapse. -/
def effPath (t : Task) : String :=
  match t.path with
  | none => ""
  | some s => s

/-- `data.get("todoistTasksData", {}).get("tasks", [])`. -/
def tasksOf (d : Document) : List Task :=
  match d.todoistTasksData with
  | none => []
  | some td => td.tasks.getD []

/-- `data.get("todoistTasksData", {})["tasks"] = ts`: when the
`todoistTasksData` key is absent, `data.get` yields a fresh dictionary and
the assignment is lost, so the document is unchanged. -/
def setTasks (d : Document) (ts : List Task) : Document :=
  match d.todoistTasksData with
  | none => d
  | some td => { d with todoistTasksData := some { td with tasks := some ts } }

/-- `meta.get("todoistTasks", []) or []`. -/
def effTasks (m : MetaEntry) : List String :=
  m.todoistTasks.getD []

/-- The error cases of `CleanupError`. -/
inductive CleanupErr where
  | loadFailed (path : String)
  | reportNotFound (path : String)
  | vaultMissing
  deriving DecidableEq, Repr

deriving instance DecidableEq for Except

/-! ## Report parser (`extract_ids_from_report`)

The regex is `todoist_id:\s*(\d+)`, applied with `pattern.search(line)` to
each line of the report, keeping only the first match per line. -/

/-- The character class `\s` (ASCII portion). -/
def isPySpace (c : Char) : Bool :=
  c = ' ' || c = '\t' || c = '\n' || c = '\r' || c = '\x0b' || c = '\x0c'

/-- Strip a literal character sequence from the front, or fail. -/
def stripLit : List Char → List Char → Option (List Char)
  | [], cs => some cs
  | _ :: _, [] => none
  | l :: ls, c :: cs => if l = c then stripLit ls cs else none

/-- Maximal run of `\s` characters dropped from the front. -/
def dropSpaces : List Char → List Char
  | [] => []
  | c :: cs => if isPySpace c then dropSpaces cs else c :: cs

/-- Maximal run of digits taken from the front (the greedy group `(\d+)`). -/
def takeDigits : List Char → List Char
  | [] => []
  | c :: cs => if c.isDigit then c :: takeDigits cs else []

/-- Attempt of `todoist_id:\s*(\d+)` anchored at the current position,
returning the digit group.  Since no digit is a whitespace character,
greedy matching of `\s*` with backtracking is equivalent to skipping the
maximal whitespace run and then requiring at least one digit. -/
def matchAt (cs : List Char) : Option String :=
  match stripLit ("todoist_id:".toList) cs with
  | none => none
  | some rest =>
    let ds := takeDigits (dropSpaces rest)
    if ds.isEmpty then none else some (String.mk ds)

/-- `pattern.search`: the match at the leftmost position where the pattern
matches, scanning left to right. -/
def searchFrom : List Char → Option String
  | [] => none
  | c :: cs =>
    match matchAt (c :: cs) with
    | some s => some s
    | none => searchFrom cs

/-- First regex match of a line. -/
def lineFirstId (line : String) : Option String :=
  searchFrom line.toList

/-- Newline splitting on character lists. -/
def splitLinesChars : List Char → List (List Char)
  | [] => [[]]
  | c :: cs =>
    let rest := splitLinesChars cs
    if c = '\n' then [] :: rest
    else
      match rest with
      | [] => [[c]]
      | l :: ls => (c :: l) :: ls

/-- File iteration `for line in handle` modelled as newline splitting
(whether the terminator stays attached is irrelevant to the pattern, whose
digit group cannot span a newline). -/
def splitLines (text : String) : List String :=
  (splitLinesChars text.toList).map String.mk

/-- `ids.add s`: set insertion, modelled on duplicate-free lists. -/
def setInsert (l : List String) (s : String) : List String :=
  if s ∈ l then l else l ++ [s]

/-- The loop body of `extract_ids_from_report`: per line, the first match
(if any) is added to the identifier set. -/
def extractIdsFromLines (lines : List String) : List String :=
  lines.foldl
    (fun acc line =>
      match lineFirstId line with
      | some s => setInsert acc s
      | none => acc)
    []

/-- `extract_ids_from_report`: no path yields the empty set, a missing file
is a `CleanupError`, otherwise the per-line first matches are collected. -/
def extract_ids_from_report (fs : String → Option String) :
    Option String → Except CleanupErr (List String)
  | none => Except.ok []
  | some p =>
    match fs p with
    | none => Except.error (CleanupErr.reportNotFound p)
    | some text => Except.ok (extractIdsFromLines (splitLines text))

/-- All matches of the pattern, one per starting position (used to state
the "every occurrence, including several per line" reading of the spec). -/
def allMatchesFrom : List Char → List String
  | [] => []
  | c :: cs =>
    (match matchAt (c :: cs) with
     | some s => [s]
     | none => []) ++ allMatchesFrom cs

/-- Digit groups of every occurrence of the pattern anywhere in the text. -/
def allIdsInText (text : String) : List String :=
  (splitLines text).flatMap (fun l => allMatchesFrom l.toList)

/-! ## Marker check (`marker_missing`)

The marker pattern is `MARKER_TEMPLATE = r"todoist_id::\s*{task_id}"` with
the task identifier inserted through `re.escape`, so the identifier part is
a literal.  The literal may itself start with whitespace, so here `\s*`
keeps its full backtracking semantics. -/

/-- After the literal `todoist_id::`: try the identifier literal after
`k = 0, 1, 2, …` whitespace characters (backtracking of `\s*`). -/
def wsThenLit (tid : List Char) : List Char → Bool
  | [] => tid.isPrefixOf ([] : List Char)
  | c :: cs => tid.isPrefixOf (c :: cs) || (isPySpace c && wsThenLit tid cs)

/-- Marker pattern anchored at the current position. -/
def markerHere (tid cs : List Char) : Bool :=
  match stripLit ("todoist_id::".toList) cs with
  | none => false
  | some rest => wsThenLit tid rest

/-- `pattern.search` for the marker pattern: a match at some position. -/
def markerSearch (tid : List Char) : List Char → Bool
  | [] => markerHere tid []
  | c :: cs => markerHere tid (c :: cs) || markerSearch tid cs

/-- The marker for `tid` occurs somewhere in the text of the note. -/
def markerFound (text tid : String) : Bool :=
  markerSearch tid.toList text.toList

/-- `marker_missing(note_path, task_id)`: a non-existing note counts as
missing; otherwise the note text (read with a lossy-decode fallback, so
always some string) is searched for the marker. -/
def marker_missing (fs : String → Option String) (p tid : String) : Bool :=
  match fs p with
  | none => true
  | some text => !(markerFound text tid)

/-! ## Automatic consistency checker (`gather_auto_removals`) -/

/-- `reasons : Dict[str, List[str]]` as an insertion-ordered association
list (Python dictionaries preserve insertion order). -/
abbrev ReasonMap := List (String × List String)

/-- `reasons[task_id].append(r)` on a `defaultdict(list)`: the entry is
created on first append and extended afterwards. -/
def appendReason : ReasonMap → String → String → ReasonMap
  | [], k, r => [(k, [r])]
  | (k0, rs) :: rest, k, r =>
    if k0 = k then (k0, rs ++ [r]) :: rest else (k0, rs) :: appendReason rest k r

/-- Append a whole list of reasons in order under one key. -/
def appendAll (m : ReasonMap) (k : String) (rs : List String) : ReasonMap :=
  rs.foldl (fun m r => appendReason m k r) m

/-- Existence of the optional note path (`note_path and note_path.exists()`). -/
def noteExists (fs : String → Option String) : Option String → Bool
  | none => false
  | some p => (fs p).isSome

/-- The loop body of `gather_auto_removals` for one task. -/
def gatherStep (fs : String → Option String) (root : String)
    (dmp dmm : Bool) (m : ReasonMap) (task : Task) : ReasonMap :=
  let task_id := strOfId task.id
  let note_rel := effPath task
  let note : Option String :=
    if note_rel = "" then none else some (root ++ "/" ++ note_rel)
  let m1 :=
    if dmp then
      if note_rel = "" then appendReason m task_id "missing note path"
      else if (fs (root ++ "/" ++ note_rel)).isNone then
        appendReason m task_id "note file not found"
      else m
    else m
  if dmm && noteExists fs note then
    if marker_missing fs (note.getD "") task_id then
      appendReason m1 task_id "todoist marker missing in note"
    else m1
  else if dmm && !(noteExists fs note) then
    appendReason m1 task_id "todoist marker unavailable (missing note)"
  else m1

/-- `gather_auto_removals` (its verbose printing is modelled at the `main`
level, where the emitted lines enter the effect trace). -/
def gather_auto_removals (fs : String → Option String) (tasks : List Task)
    (vault_root : Option String) (dmp dmm : Bool) :
    Except CleanupErr ReasonMap :=
  if dmp || dmm then
    match vault_root with
    | none => Except.error CleanupErr.vaultMissing
    | some root => Except.ok (tasks.foldl (gatherStep fs root dmp dmm) [])
  else Except.ok []

/-- The reasons the specification assigns to a single task: the
missing-path block and the missing-marker block act independently and in
this order. -/
def taskReasonsSpec (fs : String → Option String) (root : String)
    (dmp dmm : Bool) (t : Task) : List String :=
  (if dmp then
     if effPath t = "" then ["missing note path"]
     else if (fs (root ++ "/" ++ effPath t)).isNone then ["note file not found"]
     else []
   else []) ++
  (if dmm then
     if effPath t ≠ "" ∧ (fs (root ++ "/" ++ effPath t)).isSome then
       if marker_missing fs (root ++ "/" ++ effPath t) (strOfId t.id) then
         ["todoist marker missing in note"]
       else []
     else ["todoist marker unavailable (missing note)"]
   else [])

/-! ## Removal engine (`remove_tasks`, `prune_empty_metadata`) -/

/-- The before/after counters returned by `remove_tasks`. -/
structure Summary where
  tasks_before : Nat
  tasks_after : Nat
  updated_entries : Nat
  pruned_entries : Nat
  deriving DecidableEq, Repr

/-- Body of the metadata loop for one entry: filter `todoistTasks` by the
removal set and, when the length changed, store the filtered list and
resynchronise `todoistCount`. -/
def metaStep (task_ids : List String) (p : String × MetaEntry) :
    String × MetaEntry :=
  let ids := effTasks p.2
  let new_ids := ids.filter (fun i => !(decide (i ∈ task_ids)))
  if new_ids.length ≠ ids.length then
    (p.1, { p.2 with todoistTasks := some new_ids,
                     todoistCount := some (Int.ofNat new_ids.length) })
  else p

/-- The filtered list of the entry differs in length (the `updated_entries`
condition of the loop). -/
def metaChanged (task_ids : List String) (p : String × MetaEntry) : Bool :=
  decide (((effTasks p.2).filter (fun i => !(decide (i ∈ task_ids)))).length
            ≠ (effTasks p.2).length)

/-- The entry changed and its filtered list became empty (the
`pruned_entries` condition of the loop). -/
def metaPruned (task_ids : List String) (p : String × MetaEntry) : Bool :=
  metaChanged task_ids p &&
    ((effTasks p.2).filter (fun i => !(decide (i ∈ task_ids)))).isEmpty

/-- `remove_tasks`: filter the task collection, then walk the metadata
entries updating lists, counts and the counters.  The Python single loop is
rendered as one map (the rewritten entries) plus two counts (the counter
increments); the three walk the same list with the same conditions. -/
def remove_tasks (data : Document) (task_ids : List String) :
    Document × Summary :=
  let tasks := tasksOf data
  let before := tasks.length
  let new_tasks := tasks.filter (fun t => !(decide (strOfId t.id ∈ task_ids)))
  let data1 := setTasks data new_tasks
  let after := (tasksOf data1).length
  let new_meta := data1.fileMetadata.map (metaStep task_ids)
  let updated := data1.fileMetadata.countP (metaChanged task_ids)
  let pruned := data1.fileMetadata.countP (metaPruned task_ids)
  ({ data1 with fileMetadata := new_meta },
   { tasks_before := before, tasks_after := after,
     updated_entries := updated, pruned_entries := pruned })

/-- `meta.get("todoistTasks") in ([], None)`: the list of the entry is empty,
absent or `null`. -/
def emptyMetaEntry (p : String × MetaEntry) : Bool :=
  p.2.todoistTasks = none || p.2.todoistTasks = some []

/-- `prune_empty_metadata`: drop every empty entry, returning how many. -/
def prune_empty_metadata (data : Document) : Nat × Document :=
  let to_remove := data.fileMetadata.filter emptyMetaEntry
  (to_remove.length,
   { data with fileMetadata := data.fileMetadata.filter (fun p => !(emptyMetaEntry p)) })

/-! ## Orchestration (`main`)

The world supplies the parse result of the snapshot file (`none` models a
missing or unparseable file) and the filesystem contents; `main` returns
the exit code, the ordered trace of observable effects, and the final
in-memory document. -/

/-- Observable side effects of a run. -/
inductive Effect where
  | backup (source : String)
  | write (path : String) (doc : Document)
  | printOut (line : String)
  deriving DecidableEq, Repr

/-- An effect is a plain console print (neither a backup nor a write). -/
def Effect.isPrint : Effect → Bool
  | Effect.printOut _ => true
  | _ => false

/-- The parsed command line. -/
structure Args where
  data_json : String := "data.json"
  vault_root : Option String := none
  report : Option String := none
  remove_ids : Option (List String) := none
  drop_missing_path : Bool := false
  drop_missing_marker : Bool := false
  prune_empty_metadata : Bool := false
  no_backup : Bool := false
  dry_run : Bool := false
  verbose : Bool := false

/-- The environment of a run: the parse result of the snapshot file and the
filesystem (`fs p = some text` means path `p` exists with content `text`;
for directories only existence is consulted). -/
structure World where
  dataDoc : Option Document
  fs : String → Option String

/-- Result of a successful run. -/
structure MainResult where
  exitCode : Int
  effects : List Effect
  finalDoc : Document
  deriving DecidableEq, Repr

/-- `DEFAULT_VAULT`, the built-in vault location. -/
def DEFAULT_VAULT : String := "C:/Users/rodri/Obsidian/Rodrigo\x27s Vault"

/-- `resolve_vault_root`: an explicit path must exist, otherwise the
default location is used only if it exists. -/
def resolve_vault_root (fs : String → Option String) :
    Option String → Option String
  | none => if (fs DEFAULT_VAULT).isSome then some DEFAULT_VAULT else none
  | some p => if (fs p).isSome then some p else none

/-- `value.strip()`: whitespace removed from both ends. -/
def pyStrip (s : String) : String :=
  String.mk (((s.toList.dropWhile isPySpace).reverse.dropWhile isPySpace).reverse)

/-- `ids_from_args`: trim each explicit identifier and drop empties,
collecting into a set. -/
def ids_from_args (values : Option (List String)) : List String :=
  (((values.getD []).map pyStrip).filter (fun s => s ≠ "")).foldl setInsert []

/-- Set union on duplicate-free lists. -/
def unionIds (a b : List String) : List String :=
  b.foldl setInsert a

/-- `task_ids = report_ids | manual_ids | auto_ids; task_ids.discard("")`. -/
def finalTaskIds (report_ids manual_ids : List String)
    (auto_reasons : ReasonMap) : List String :=
  (unionIds (unionIds (report_ids.foldl setInsert []) manual_ids)
      (auto_reasons.map Prod.fst)).filter (fun s => s ≠ "")

/-- Lexicographic comparison of strings by code point, as the Python builtin
`sorted` orders them. -/
def lexLe : List Char → List Char → Bool
  | [], _ => true
  | _ :: _, [] => false
  | a :: as, b :: bs =>
    if a = b then lexLe as bs else decide (a.val.toNat < b.val.toNat)

/-- Insertion into a sorted list of strings. -/
def insertSorted (s : String) : List String → List String
  | [] => [s]
  | x :: xs => if lexLe s.toList x.toList then s :: x :: xs else x :: insertSorted s xs

/-- `sorted(task_ids)`: lexicographic string sort. -/
def sortStrings (l : List String) : List String :=
  l.foldr insertSorted []

/-- `auto_reasons[tid]` guarded by `tid in auto_reasons`. -/
def lookupReasons (k : String) (m : ReasonMap) : Option (List String) :=
  (m.find? (fun p => p.1 = k)).map Prod.snd

/-- The reason string printed for one identifier in dry-run mode. -/
def dryRunReason (tid : String) (report_ids manual_ids : List String)
    (auto_reasons : ReasonMap) : String :=
  let rs :=
    (if tid ∈ report_ids then ["listed in report"] else []) ++
    (if tid ∈ manual_ids then ["explicit request"] else []) ++
    (lookupReasons tid auto_reasons).getD []
  if rs = [] then "(no reason recorded)" else String.intercalate ", " rs

/-- The verbose log lines that `gather_auto_removals` prints, one per
flagged task, in the order encountered. -/
def gatherPrints (verbose : Bool) (auto_reasons : ReasonMap) : List Effect :=
  if verbose && !auto_reasons.isEmpty then
    auto_reasons.map (fun p =>
      Effect.printOut ("Auto-removal candidate " ++ p.1 ++ ": " ++
        String.intercalate ", " p.2))
  else []

/-- Identifier-gathering phase of `main`: report identifiers (skipped when
`args.report` is absent or empty, hence falsy), explicit identifiers, and
the reason map of the automatic checker. -/
def selectedSources (w : World) (a : Args) (data : Document) :
    Except CleanupErr (List String × List String × ReasonMap) :=
  let manual_ids := ids_from_args a.remove_ids
  match (match a.report with
         | some r => if r = "" then Except.ok [] else extract_ids_from_report w.fs (some r)
         | none => Except.ok ([] : List String)) with
  | Except.error e => Except.error e
  | Except.ok report_ids =>
    match gather_auto_removals w.fs (tasksOf data)
        (resolve_vault_root w.fs a.vault_root)
        a.drop_missing_path a.drop_missing_marker with
    | Except.error e => Except.error e
    | Except.ok auto_reasons => Except.ok (report_ids, manual_ids, auto_reasons)

/-- `main`: load, aggregate identifiers, then preview (dry-run) or
back up, mutate, optionally prune, and write. -/
def main (w : World) (a : Args) : Except CleanupErr MainResult :=
  match w.dataDoc with
  | none => Except.error (CleanupErr.loadFailed a.data_json)
  | some data =>
    match selectedSources w a data with
    | Except.error e => Except.error e
    | Except.ok (report_ids, manual_ids, auto_reasons) =>
      let gPrints := gatherPrints a.verbose auto_reasons
      let task_ids := finalTaskIds report_ids manual_ids auto_reasons
      if task_ids.isEmpty then
        Except.ok
          { exitCode := 0,
            effects := gPrints ++
              [Effect.printOut "No task IDs selected for removal. Nothing to do."],
            finalDoc := data }
      else
        let sortedIds := sortStrings task_ids
        let vPrints :=
          if a.verbose then
            [Effect.printOut ("Tasks selected for removal (" ++
              toString task_ids.length ++ "): " ++
              String.intercalate ", " sortedIds)]
          else []
        if a.dry_run then
          Except.ok
          { exitCode := 0,
            effects := gPrints ++ vPrints ++
              [Effect.printOut "Dry-run mode: the following tasks would be removed:"] ++
              sortedIds.map (fun tid =>
                Effect.printOut ("  - " ++ tid ++ ": " ++
                  dryRunReason tid report_ids manual_ids auto_reasons)),
            finalDoc := data }
        else
          let bEffects :=
            if !a.no_backup then
              [Effect.backup a.data_json] ++
                (if a.verbose then
                   [Effect.printOut ("Backup created at " ++ a.data_json ++ ".bak")]
                 else [])
            else []
          let rt := remove_tasks data task_ids
          let pr :=
            if a.prune_empty_metadata then TodoistBridge.prune_empty_metadata rt.1
            else (0, rt.1)
          let removed := rt.2.tasks_before - rt.2.tasks_after
          Except.ok
          { exitCode := 0,
            effects := gPrints ++ vPrints ++ bEffects ++
              [Effect.write a.data_json pr.2] ++
              [Effect.printOut ("Removed " ++ toString removed ++ " task(s) from data.json."),
               Effect.printOut ("Updated " ++ toString rt.2.updated_entries ++ " file metadata entrie(s).")] ++
              (if pr.1 ≠ 0 then
                 [Effect.printOut ("Pruned " ++ toString pr.1 ++ " empty metadata entrie(s).")]
               else []),
            finalDoc := pr.2 }

/-! ## Witness inputs -/

/-- A small snapshot: two tasks, one metadata entry (the example
scenario of the specification). -/
def docW : Document :=
  { todoistTasksData := some { tasks := some [
      { id := some (IdVal.num 1), path := some "a.md" },
      { id := some (IdVal.num 2), path := some "" } ] },
    fileMetadata := [("a.md", { todoistTasks := some ["1"], todoistCount := some 1 })] }

/-- A world in which the snapshot parses to `docW` and no other path
exists. -/
def wDry : World := { dataDoc := some docW, fs := fun _ => none }

/-- A dry-run invocation removing the explicit identifier `" 2 "`. -/
def aDry : Args := { remove_ids := some [" 2 "], dry_run := true }

/-- An invocation with no identifier source at all. -/
def aNone : Args := { verbose := true }

/-- A metadata entry whose stored count already disagrees with its list. -/
def docBadCount : Document :=
  { todoistTasksData := none,
    fileMetadata := [("a.md", { todoistTasks := some ["1"], todoistCount := some 5 })] }

/-- The invariant of the specification: for every metadata entry the field
`todoistCount` equals the length of its (effective) `todoistTasks` list. -/
abbrev countsConsistent (d : Document) : Prop :=
  ∀ p ∈ d.fileMetadata, p.2.todoistCount = some (Int.ofNat (effTasks p.2).length)

/-! ## Helper lemmas -/

theorem all_of_filter_length_eq {α : Type} {p : α → Bool} {l : List α}
    (h : (l.filter p).length = l.length) : ∀ x ∈ l, p x = true :=
  List.filter_eq_self.mp ((List.filter_sublist l).eq_of_length h)

theorem map_id_of_mem {α : Type} {f : α → α} {l : List α}
    (h : ∀ x ∈ l, f x = x) : l.map f = l := by
  induction l with
  | nil => rfl
  | cons a l ih =>
    simp only [List.map_cons]
    rw [h a (List.mem_cons_self a l), ih (fun x hx => h x (List.mem_cons_of_mem a hx))]

/-- The task collection after `remove_tasks` is the filtered collection
(also when `todoistTasksData` is absent, both sides being empty). -/
theorem tasksOf_remove_tasks (data : Document) (ids : List String) :
    tasksOf (remove_tasks data ids).1
      = (tasksOf data).filter (fun t => !(decide (strOfId t.id ∈ ids))) := by
  cases h : data.todoistTasksData with
  | none => simp [remove_tasks, setTasks, tasksOf, h]
  | some td => simp [remove_tasks, setTasks, tasksOf, h]

/-- The metadata after `remove_tasks` is the entrywise-rewritten mapping. -/
theorem fileMetadata_remove_tasks (data : Document) (ids : List String) :
    (remove_tasks data ids).1.fileMetadata
      = data.fileMetadata.map (metaStep ids) := by
  cases h : data.todoistTasksData <;> simp [remove_tasks, setTasks, h]

/-- The counters returned by `remove_tasks`. -/
theorem summary_remove_tasks (data : Document) (ids : List String) :
    (remove_tasks data ids).2
      = { tasks_before := (tasksOf data).length,
          tasks_after :=
            ((tasksOf data).filter (fun t => !(decide (strOfId t.id ∈ ids)))).length,
          updated_entries := data.fileMetadata.countP (metaChanged ids),
          pruned_entries := data.fileMetadata.countP (metaPruned ids) } := by
  cases h : data.todoistTasksData <;> simp [remove_tasks, setTasks, tasksOf, h]

theorem metaStep_of_unchanged {ids : List String} {p : String × MetaEntry}
    (h : ((effTasks p.2).filter (fun i => !(decide (i ∈ ids)))).length
           = (effTasks p.2).length) :
    metaStep ids p = p := by
  simp only [metaStep]
  rw [if_neg (fun hn => hn h)]

theorem metaStep_of_changed {ids : List String} {p : String × MetaEntry}
    (h : ¬ ((effTasks p.2).filter (fun i => !(decide (i ∈ ids)))).length
           = (effTasks p.2).length) :
    metaStep ids p
      = (p.1, { p.2 with
          todoistTasks := some ((effTasks p.2).filter (fun i => !(decide (i ∈ ids)))),
          todoistCount :=
            some (Int.ofNat ((effTasks p.2).filter (fun i => !(decide (i ∈ ids)))).length) }) := by
  simp only [metaStep]
  rw [if_pos h]

/-! ## Claims -/

/-- C1: after a `remove_tasks` pass, no task whose identifier (compared as
a string) lies in the removal set remains in the task collection, and no
`todoistTasks` list of a metadata entry retains such an identifier. -/
theorem claim_C1_removal_purges (data : Document) (ids : List String) :
    (∀ t ∈ tasksOf (remove_tasks data ids).1, strOfId t.id ∉ ids) ∧
    (∀ p ∈ (remove_tasks data ids).1.fileMetadata, ∀ i ∈ effTasks p.2, i ∉ ids) := by
  constructor
  · intro t ht
    rw [tasksOf_remove_tasks] at ht
    have h2 := (List.mem_filter.mp ht).2
    simpa using h2
  · intro p hp i hi
    rw [fileMetadata_remove_tasks] at hp
    obtain ⟨q, hq, rfl⟩ := List.mem_map.mp hp
    by_cases hc : ((effTasks q.2).filter (fun i => !(decide (i ∈ ids)))).length
        = (effTasks q.2).length
    · rw [metaStep_of_unchanged hc] at hi
      have := all_of_filter_length_eq hc i hi
      simpa using this
    · rw [metaStep_of_changed hc] at hi
      simp only [effTasks, Option.getD_some] at hi
      have := (List.mem_filter.mp hi).2
      simpa using this

/-- Witness for C1 at the example snapshot. -/
theorem claim_C1_witness :
    (⟨some (IdVal.num 1), some "a.md", 0⟩ : Task) ∈ tasksOf (remove_tasks docW ["2"]).1 ∧
    strOfId (some (IdVal.num 1)) ∉ ["2"] :=
  ⟨by decide,
   (claim_C1_removal_purges docW ["2"]).1 ⟨some (IdVal.num 1), some "a.md", 0⟩ (by decide)⟩

/-- C2 as stated is false: an entry whose stored count already disagrees
with its list is left untouched (the loop resynchronises the count only
for entries whose list changed), so the invariant does not hold after the
pass on this input. -/
theorem claim_C2_counterexample :
    ¬ countsConsistent (remove_tasks docBadCount ["2"]).1 := by
  intro h
  have := h ("a.md", { todoistTasks := some ["1"], todoistCount := some 5, other := 0 })
    (by decide)
  exact absurd this (by decide)

/-- C2 amended: if in every metadata entry `todoistCount` equals the length
of the `todoistTasks` list before the pass, the same holds after every
`remove_tasks` pass. -/
theorem claim_C2_amended (data : Document) (ids : List String)
    (h : countsConsistent data) : countsConsistent (remove_tasks data ids).1 := by
  intro p hp
  rw [fileMetadata_remove_tasks] at hp
  obtain ⟨q, hq, rfl⟩ := List.mem_map.mp hp
  by_cases hc : ((effTasks q.2).filter (fun i => !(decide (i ∈ ids)))).length
      = (effTasks q.2).length
  · rw [metaStep_of_unchanged hc]
    exact h q hq
  · rw [metaStep_of_changed hc]
    simp [effTasks]

/-- Witness for the amended C2 at the example snapshot. -/
theorem claim_C2_witness :
    countsConsistent docW ∧ countsConsistent (remove_tasks docW ["1"]).1 :=
  ⟨by decide, claim_C2_amended docW ["1"] (by decide)⟩

/-- C7: on a removal set disjoint from the task identifiers of the document and
metadata lists (in particular the empty set), `remove_tasks` leaves the
task collection and every metadata entry with content equal to the
original, so a load–remove–save round trip preserves the content. -/
theorem claim_C7_noop_on_disjoint (data : Document) (ids : List String)
    (h1 : ∀ t ∈ tasksOf data, strOfId t.id ∉ ids)
    (h2 : ∀ p ∈ data.fileMetadata, ∀ i ∈ effTasks p.2, i ∉ ids) :
    tasksOf (remove_tasks data ids).1 = tasksOf data ∧
    (remove_tasks data ids).1.fileMetadata = data.fileMetadata := by
  constructor
  · rw [tasksOf_remove_tasks]
    apply List.filter_eq_self.mpr
    intro t ht
    simpa using h1 t ht
  · rw [fileMetadata_remove_tasks]
    apply map_id_of_mem
    intro p hp
    apply metaStep_of_unchanged
    have hself : (effTasks p.2).filter (fun i => !(decide (i ∈ ids))) = effTasks p.2 := by
      apply List.filter_eq_self.mpr
      intro i hi
      simpa using h2 p hp i hi
    rw [hself]

/-- Witness for C7: the empty removal set round-trips the example
snapshot. -/
theorem claim_C7_witness :
    tasksOf (remove_tasks docW []).1 = tasksOf docW ∧
    (remove_tasks docW []).1.fileMetadata = docW.fileMetadata :=
  claim_C7_noop_on_disjoint docW [] (by decide) (by decide)

theorem filter_length_partition {α : Type} (p : α → Bool) (l : List α) :
    (l.filter p).length + (l.filter (fun a => !(p a))).length = l.length := by
  induction l with
  | nil => rfl
  | cons a l ih => cases h : p a <;> simp [List.filter_cons, h] <;> omega

theorem metaStep_fst (ids : List String) (p : String × MetaEntry) :
    (metaStep ids p).1 = p.1 := by
  simp only [metaStep]
  split <;> rfl

/-- C9: `prune_empty_metadata` removes exactly the entries whose
`todoistTasks` is empty, absent or null, keeps every other entry verbatim
(in order), and returns the number removed; `remove_tasks` itself never
deletes a metadata entry, its `pruned_entries` counter merely counting the
entries that became empty. -/
theorem claim_C9_prune_exact (data : Document) (ids : List String) :
    (∀ p, p ∈ (prune_empty_metadata data).2.fileMetadata ↔
       p ∈ data.fileMetadata ∧
         ¬ (p.2.todoistTasks = none ∨ p.2.todoistTasks = some [])) ∧
    ((prune_empty_metadata data).2.fileMetadata).Sublist data.fileMetadata ∧
    (prune_empty_metadata data).1
      = data.fileMetadata.length - (prune_empty_metadata data).2.fileMetadata.length ∧
    (remove_tasks data ids).1.fileMetadata.map Prod.fst
      = data.fileMetadata.map Prod.fst ∧
    (remove_tasks data ids).2.pruned_entries
      = data.fileMetadata.countP
          (fun p => !(effTasks p.2).isEmpty &&
            ((effTasks p.2).filter (fun i => !(decide (i ∈ ids)))).isEmpty) := by
  refine ⟨?_, ?_, ?_, ?_, ?_⟩
  · intro p
    simp [prune_empty_metadata, emptyMetaEntry, List.mem_filter, or_comm]
  · simp only [prune_empty_metadata]
    exact List.filter_sublist data.fileMetadata
  · have hpart := filter_length_partition emptyMetaEntry data.fileMetadata
    simp only [prune_empty_metadata]
    omega
  · rw [fileMetadata_remove_tasks, List.map_map]
    exact List.map_congr_left (fun p _ => metaStep_fst ids p)
  · rw [summary_remove_tasks]
    apply List.countP_congr
    intro p _
    cases hf : ((effTasks p.2).filter (fun i => !(decide (i ∈ ids)))).isEmpty
    · simp [metaPruned, metaChanged, hf]
    · cases he : effTasks p.2 with
      | nil => simp [metaPruned, metaChanged, he]
      | cons a l =>
        have hnil : (a :: l).filter (fun i => !(decide (i ∈ ids))) = [] := by
          rw [← he]
          exact List.isEmpty_iff.mp hf
        simp [metaPruned, metaChanged, he, hf, hnil]

/-- Witness for C9: the prune count on the example snapshot after removing
task 1 equals the number of entries dropped. -/
theorem claim_C9_witness :
    (prune_empty_metadata (remove_tasks docW ["1"]).1).1
      = (remove_tasks docW ["1"]).1.fileMetadata.length
        - (prune_empty_metadata (remove_tasks docW ["1"]).1).2.fileMetadata.length :=
  (claim_C9_prune_exact (remove_tasks docW ["1"]).1 []).2.2.1

/-- C10: a task lacking an identifier (or with identifier null) is handled
under the string `"None"`: the automatic checker flags it under that key,
and a removal set containing `"None"` removes every such task. -/
theorem claim_C10_none_id :
    (∀ (fs : String → Option String) (root : String) (t : Task),
        t.id = none → effPath t = "" →
        gather_auto_removals fs [t] (some root) true true
          = Except.ok [("None",
              ["missing note path", "todoist marker unavailable (missing note)"])]) ∧
    (∀ (data : Document) (ids : List String), "None" ∈ ids →
        ∀ t ∈ tasksOf (remove_tasks data ids).1, t.id ≠ none) := by
  constructor
  · intro fs root t hid hpath
    simp [gather_auto_removals, gatherStep, hpath, hid, strOfId, noteExists, appendReason]
  · intro data ids hNone t ht hid
    rw [tasksOf_remove_tasks] at ht
    have h2 := (List.mem_filter.mp ht).2
    rw [hid] at h2
    simp [strOfId] at h2
    exact h2 hNone

/-- Witness for C10 at a concrete identifierless task. -/
theorem claim_C10_witness :
    gather_auto_removals (fun _ => none) [⟨none, none, 0⟩] (some "V") true true
      = Except.ok [("None",
          ["missing note path", "todoist marker unavailable (missing note)"])] :=
  claim_C10_none_id.1 (fun _ => none) "V" ⟨none, none, 0⟩ rfl rfl

/-- C6: the automatic checker fails exactly when a toggle is on and no
vault root resolved, and with both toggles off it returns the empty map at
once, independent of the filesystem. -/
theorem claim_C6_gather_error_iff (fs : String → Option String)
    (tasks : List Task) (root : Option String) (dmp dmm : Bool) :
    ((∃ e, gather_auto_removals fs tasks root dmp dmm = Except.error e)
        ↔ ((dmp = true ∨ dmm = true) ∧ root = none)) ∧
    (dmp = false → dmm = false →
      gather_auto_removals fs tasks root dmp dmm = Except.ok [] ∧
      ∀ fs2, gather_auto_removals fs tasks root dmp dmm
           = gather_auto_removals fs2 tasks root dmp dmm) := by
  cases dmp <;> cases dmm <;> cases root <;> simp [gather_auto_removals]

/-- Witness for C6 with one toggle on and no root. -/
theorem claim_C6_witness :
    (∃ e, gather_auto_removals (fun _ => none) [] none true false = Except.error e) ∧
    gather_auto_removals (fun _ => none) [] none false false = Except.ok [] :=
  ⟨(claim_C6_gather_error_iff (fun _ => none) [] none true false).1.mpr
      (by simp),
   ((claim_C6_gather_error_iff (fun _ => none) [] none false false).2 rfl rfl).1⟩

theorem appendAll_append (m : ReasonMap) (k : String) (l1 l2 : List String) :
    appendAll m k (l1 ++ l2) = appendAll (appendAll m k l1) k l2 := by
  simp [appendAll, List.foldl_append]

/-- The loop body of the automatic checker records, under the string
identifier of the task, exactly the reasons that the two independent
toggle blocks produce, in their order. -/
theorem gatherStep_eq (fs : String → Option String) (root : String)
    (dmp dmm : Bool) (m : ReasonMap) (t : Task) :
    gatherStep fs root dmp dmm m t
      = appendAll m (strOfId t.id) (taskReasonsSpec fs root dmp dmm t) := by
  by_cases hrel : effPath t = ""
  · cases dmp <;> cases dmm <;>
      simp [gatherStep, taskReasonsSpec, hrel, noteExists, appendAll_append, appendAll]
  · cases hfs : fs (root ++ "/" ++ effPath t) with
    | none =>
      cases dmp <;> cases dmm <;>
        simp [gatherStep, taskReasonsSpec, hrel, noteExists, hfs,
          appendAll_append, appendAll]
    | some txt =>
      cases dmp <;> cases dmm <;>
        cases hmm : marker_missing fs (root ++ "/" ++ effPath t) (strOfId t.id) <;>
          simp [gatherStep, taskReasonsSpec, hrel, noteExists, hfs, hmm,
            appendAll_append, appendAll]

/-- C8: per task, the checker records exactly the specified reasons — with
check-missing-path on, "missing note path" for a pathless task and "note
file not found" for a non-existing note; with check-missing-marker on,
"todoist marker missing in note" when the note exists without the marker
and "todoist marker unavailable (missing note)" otherwise — so a pathless
task with both toggles on gets exactly the two reasons in order, and a
task with no triggered reason contributes nothing to the result. -/
theorem claim_C8_reason_rules :
    (∀ (fs : String → Option String) (root : String) (dmp dmm : Bool)
        (m : ReasonMap) (t : Task),
        gatherStep fs root dmp dmm m t
          = appendAll m (strOfId t.id) (taskReasonsSpec fs root dmp dmm t)) ∧
    (∀ (fs : String → Option String) (root : String) (t : Task),
        effPath t = "" →
        taskReasonsSpec fs root true true t
          = ["missing note path", "todoist marker unavailable (missing note)"]) ∧
    (∀ (fs : String → Option String) (root : String) (dmp dmm : Bool) (t : Task),
        taskReasonsSpec fs root dmp dmm t = [] →
        gather_auto_removals fs [t] (some root) dmp dmm = Except.ok []) := by
  refine ⟨gatherStep_eq, ?_, ?_⟩
  · intro fs root t hrel
    simp [taskReasonsSpec, hrel]
  · intro fs root dmp dmm t h
    cases hdm : (dmp || dmm)
    · simp [gather_auto_removals, hdm]
    · simp [gather_auto_removals, hdm, gatherStep_eq, h, appendAll]

/-- Witness for C8: a pathless task under both toggles. -/
theorem claim_C8_witness :
    taskReasonsSpec (fun _ => none) "V" true true ⟨some (IdVal.num 7), none, 0⟩
      = ["missing note path", "todoist marker unavailable (missing note)"] :=
  claim_C8_reason_rules.2.1 (fun _ => none) "V" ⟨some (IdVal.num 7), none, 0⟩ rfl

theorem matchAt_nil : matchAt [] = none := rfl

/-- `pattern.search` semantics: a result is exactly a match at the leftmost
matching position. -/
theorem searchFrom_eq_some_iff (cs : List Char) (s : String) :
    searchFrom cs = some s ↔
      ∃ k, matchAt (cs.drop k) = some s ∧ ∀ j < k, matchAt (cs.drop j) = none := by
  induction cs with
  | nil =>
    constructor
    · intro h
      simp [searchFrom] at h
    · rintro ⟨k, h1, -⟩
      rw [List.drop_nil, matchAt_nil] at h1
      cases h1
  | cons c cs ih =>
    cases hm : matchAt (c :: cs) with
    | some x =>
      simp only [searchFrom, hm]
      constructor
      · intro h
        refine ⟨0, ?_, ?_⟩
        · rw [List.drop_zero]
          rw [hm, h]
        · intro j hj
          exact absurd hj (Nat.not_lt_zero j)
      · rintro ⟨k, h1, h2⟩
        cases k with
        | zero =>
          rw [List.drop_zero, hm] at h1
          exact h1
        | succ k =>
          have h0 := h2 0 (Nat.succ_pos k)
          rw [List.drop_zero, hm] at h0
          cases h0
    | none =>
      simp only [searchFrom, hm]
      rw [ih]
      constructor
      · rintro ⟨k, h1, h2⟩
        refine ⟨k + 1, ?_, ?_⟩
        · rw [List.drop_succ_cons]
          exact h1
        · intro j hj
          cases j with
          | zero => rw [List.drop_zero]; exact hm
          | succ j =>
            rw [List.drop_succ_cons]
            exact h2 j (Nat.lt_of_succ_lt_succ hj)
      · rintro ⟨k, h1, h2⟩
        cases k with
        | zero =>
          rw [List.drop_zero, hm] at h1
          cases h1
        | succ k =>
          refine ⟨k, ?_, ?_⟩
          · rw [List.drop_succ_cons] at h1
            exact h1
          · intro j hj
            have := h2 (j + 1) (Nat.succ_lt_succ hj)
            rw [List.drop_succ_cons] at this
            exact this

theorem mem_setInsert {l : List String} {s x : String} :
    x ∈ setInsert l s ↔ x ∈ l ∨ x = s := by
  by_cases h : s ∈ l
  · simp only [setInsert, if_pos h]
    exact ⟨fun hx => Or.inl hx, fun hx => hx.elim id (fun he => he ▸ h)⟩
  · simp [setInsert, h, List.mem_append]

theorem mem_extract_foldl (lines : List String) (acc : List String) (x : String) :
    (x ∈ lines.foldl
        (fun acc line =>
          match lineFirstId line with
          | some s => setInsert acc s
          | none => acc)
        acc) ↔
      x ∈ acc ∨ ∃ l ∈ lines, lineFirstId l = some x := by
  induction lines generalizing acc with
  | nil => simp
  | cons a lines ih =>
    simp only [List.foldl_cons]
    cases ha : lineFirstId a with
    | none =>
      rw [ih]
      simp [ha]
    | some s =>
      rw [ih, mem_setInsert]
      simp only [ha, List.mem_cons]
      constructor
      · rintro (⟨hx | rfl⟩ | ⟨l, hl, hfl⟩)
        · exact Or.inl hx
        · exact Or.inr ⟨a, Or.inl rfl, ha⟩
        · exact Or.inr ⟨l, Or.inr hl, hfl⟩
      · rintro (hx | ⟨l, (rfl | hl), hfl⟩)
        · exact Or.inl (Or.inl hx)
        · rw [ha] at hfl
          cases hfl
          exact Or.inl (Or.inr rfl)
        · exact Or.inr ⟨l, hl, hfl⟩

theorem mem_extractIdsFromLines (lines : List String) (x : String) :
    x ∈ extractIdsFromLines lines ↔ ∃ l ∈ lines, lineFirstId l = some x := by
  rw [extractIdsFromLines, mem_extract_foldl]
  simp

/-- The report text used to separate the two readings of C3. -/
def reportCexText : String := "todoist_id: 1 todoist_id: 2"

/-- A filesystem holding only that report. -/
def reportCexFs : String → Option String :=
  fun q => if q = "report.txt" then some reportCexText else none

/-- Successful identifier list of a report parse (empty on error). -/
def okIds : Except CleanupErr (List String) → List String
  | Except.ok l => l
  | Except.error _ => []

/-- C3 as stated is false: on a line containing two occurrences of the
pattern, only the first contributes (`pattern.search` is applied once per
line), so the parsed set is not the set of all occurrences. -/
theorem claim_C3_counterexample :
    ¬ (∀ s, s ∈ okIds (extract_ids_from_report reportCexFs (some "report.txt"))
          ↔ s ∈ allIdsInText reportCexText) := by
  intro h
  have h2 := (h "2").mpr (by decide)
  exact absurd h2 (by decide)

/-- C3 amended: for an existing report file, the parser returns exactly the
set of digit groups of the first (leftmost) occurrence of the pattern on
each line; duplicates collapse and order is irrelevant. -/
theorem claim_C3_first_match_per_line (fs : String → Option String)
    (p text : String) (h : fs p = some text) :
    extract_ids_from_report fs (some p)
      = Except.ok (extractIdsFromLines (splitLines text)) ∧
    ∀ s, s ∈ extractIdsFromLines (splitLines text) ↔
      ∃ line ∈ splitLines text,
        ∃ k, matchAt (line.toList.drop k) = some s ∧
          ∀ j < k, matchAt (line.toList.drop j) = none := by
  constructor
  · simp [extract_ids_from_report, h]
  · intro s
    rw [mem_extractIdsFromLines]
    constructor
    · rintro ⟨l, hl, hfirst⟩
      exact ⟨l, hl, (searchFrom_eq_some_iff _ _).mp hfirst⟩
    · rintro ⟨l, hl, hk⟩
      exact ⟨l, hl, (searchFrom_eq_some_iff _ _).mpr hk⟩

/-- Witness for the amended C3 at the two-occurrence report. -/
theorem claim_C3_witness :
    reportCexFs "report.txt" = some reportCexText ∧
    extract_ids_from_report reportCexFs (some "report.txt")
      = Except.ok (extractIdsFromLines (splitLines reportCexText)) :=
  ⟨by decide,
   (claim_C3_first_match_per_line reportCexFs "report.txt" reportCexText (by decide)).1⟩

theorem gatherPrints_isPrint (v : Bool) (ar : ReasonMap) :
    ∀ e ∈ gatherPrints v ar, e.isPrint = true := by
  intro e he
  simp only [gatherPrints] at he
  split at he
  · obtain ⟨q, hq, rfl⟩ := List.mem_map.mp he
    rfl
  · cases he

theorem mem_insertSorted {s x : String} {l : List String} :
    x ∈ insertSorted s l ↔ x = s ∨ x ∈ l := by
  induction l with
  | nil => simp [insertSorted]
  | cons a l ih =>
    simp only [insertSorted]
    split
    · simp [List.mem_cons]
    · rw [List.mem_cons, ih, List.mem_cons]
      tauto

theorem mem_sortStrings {x : String} (l : List String) :
    x ∈ sortStrings l ↔ x ∈ l := by
  induction l with
  | nil => simp [sortStrings]
  | cons a l ih =>
    simp only [sortStrings, List.foldr_cons]
    simp only [sortStrings] at ih
    rw [mem_insertSorted, ih, List.mem_cons]

/-- C4: in dry-run mode with a non-empty final removal set, `main`
succeeds with exit status 0, every produced effect is a console print (so
no backup is created and the snapshot file is never written, staying
byte-identical), the in-memory document is unchanged, and each selected
identifier is printed with all of its contributing reasons. -/
theorem claim_C4_dry_run_frame (w : World) (a : Args) (data : Document)
    (ri mi : List String) (ar : ReasonMap)
    (hdoc : w.dataDoc = some data)
    (hsel : selectedSources w a data = Except.ok (ri, mi, ar))
    (hdry : a.dry_run = true)
    (hne : finalTaskIds ri mi ar ≠ []) :
    ∃ res, main w a = Except.ok res ∧
      res.exitCode = 0 ∧
      res.finalDoc = data ∧
      (∀ e ∈ res.effects, e.isPrint = true) ∧
      (∀ tid ∈ finalTaskIds ri mi ar,
          Effect.printOut ("  - " ++ tid ++ ": " ++ dryRunReason tid ri mi ar)
            ∈ res.effects) := by
  have hne2 : (finalTaskIds ri mi ar).isEmpty = false := by
    cases hie : (finalTaskIds ri mi ar).isEmpty
    · rfl
    · exact absurd (List.isEmpty_iff.mp hie) hne
  have hmain : main w a = Except.ok
      { exitCode := 0,
        effects := gatherPrints a.verbose ar ++
          (if a.verbose = true then
              [Effect.printOut ("Tasks selected for removal (" ++
                toString (finalTaskIds ri mi ar).length ++ "): " ++
                String.intercalate ", " (sortStrings (finalTaskIds ri mi ar)))]
            else []) ++
          [Effect.printOut "Dry-run mode: the following tasks would be removed:"] ++
          (sortStrings (finalTaskIds ri mi ar)).map (fun tid =>
            Effect.printOut ("  - " ++ tid ++ ": " ++ dryRunReason tid ri mi ar)),
        finalDoc := data } := by
    simp only [main, hdoc, hsel, hdry, hne2, Bool.false_eq_true, if_false, if_true]
  refine ⟨_, hmain, rfl, rfl, ?_, ?_⟩
  · intro e he
    simp only [List.mem_append] at he
    rcases he with ((hg | hv) | hh) | hm
    · exact gatherPrints_isPrint a.verbose ar e hg
    · cases hverb : a.verbose
      · simp [hverb] at hv
      · simp [hverb] at hv
        subst hv
        rfl
    · rw [List.mem_singleton] at hh
      rw [hh]
      rfl
    · obtain ⟨tid, _, rfl⟩ := List.mem_map.mp hm
      rfl
  · intro tid htid
    have hs : tid ∈ sortStrings (finalTaskIds ri mi ar) :=
      (mem_sortStrings (finalTaskIds ri mi ar)).mpr htid
    have hmem :
        Effect.printOut ("  - " ++ tid ++ ": " ++ dryRunReason tid ri mi ar)
          ∈ (sortStrings (finalTaskIds ri mi ar)).map (fun tid =>
              Effect.printOut ("  - " ++ tid ++ ": " ++ dryRunReason tid ri mi ar)) :=
      List.mem_map.mpr ⟨tid, hs, rfl⟩
    simp only [List.mem_append]
    exact Or.inr hmem

/-- Witness for C4: a dry run selecting the explicit identifier 2. -/
theorem claim_C4_witness :
    finalTaskIds [] ["2"] [] ≠ [] ∧
    (∃ res, main wDry aDry = Except.ok res ∧
      res.exitCode = 0 ∧
      res.finalDoc = docW ∧
      (∀ e ∈ res.effects, e.isPrint = true) ∧
      (∀ tid ∈ finalTaskIds [] ["2"] [],
          Effect.printOut ("  - " ++ tid ++ ": " ++ dryRunReason tid [] ["2"] [])
            ∈ res.effects)) :=
  ⟨by decide,
   claim_C4_dry_run_frame wDry aDry docW [] ["2"] [] rfl (by decide) rfl (by decide)⟩

/-- C5: when the aggregated removal set is empty, `main` reports "nothing
to do" with status 0 and produces only console prints — no backup, no
document mutation, no write — regardless of dry-run or other toggles. -/
theorem claim_C5_empty_set_noop (w : World) (a : Args) (data : Document)
    (ri mi : List String) (ar : ReasonMap)
    (hdoc : w.dataDoc = some data)
    (hsel : selectedSources w a data = Except.ok (ri, mi, ar))
    (hempty : finalTaskIds ri mi ar = []) :
    ∃ res, main w a = Except.ok res ∧
      res.exitCode = 0 ∧
      res.finalDoc = data ∧
      (∀ e ∈ res.effects, e.isPrint = true) ∧
      Effect.printOut "No task IDs selected for removal. Nothing to do."
        ∈ res.effects := by
  have hie : (finalTaskIds ri mi ar).isEmpty = true := by
    rw [hempty]
    rfl
  have hmain : main w a = Except.ok
      { exitCode := 0,
        effects := gatherPrints a.verbose ar ++
          [Effect.printOut "No task IDs selected for removal. Nothing to do."],
        finalDoc := data } := by
    simp only [main, hdoc, hsel, hie, if_true]
  refine ⟨_, hmain, rfl, rfl, ?_, ?_⟩
  · intro e he
    simp only [List.mem_append] at he
    rcases he with hg | hh
    · exact gatherPrints_isPrint a.verbose ar e hg
    · rw [List.mem_singleton] at hh
      rw [hh]
      rfl
  · simp only [List.mem_append, List.mem_singleton]
    exact Or.inr trivial

/-- Witness for C5: no identifier source selected anything. -/
theorem claim_C5_witness :
    ∃ res, main wDry aNone = Except.ok res ∧
      res.exitCode = 0 ∧
      res.finalDoc = docW ∧
      (∀ e ∈ res.effects, e.isPrint = true) ∧
      Effect.printOut "No task IDs selected for removal. Nothing to do."
        ∈ res.effects :=
  claim_C5_empty_set_noop wDry aNone docW [] [] [] rfl (by decide) (by decide)

end TodoistBridge
